import Mathlib

/-!
Shallow embedding of the jobtree backend (src/server.js): a small Express +
Mongoose REST server with user signup/login, bearer-token authentication, and
owner-scoped CRUD over "posting" and "contact" records.

Modelling conventions:
* The Mongo document store is a `DB` of lists; `findOne` is `List.find?`,
  `findOneAndDelete` is `find?` plus `List.eraseP`, and `save` on an existing
  document replaces the first matching list entry.
* JSON request bodies carry `Option String` fields; `none` is an absent field.
  JavaScript truthiness of such a field (`!x` checks) is `jsTruthy`: an absent
  field and the empty string are both falsy.  `x || y` is `jsOr`.
* Document ids (`_id`) and timestamps (`Date.now`) are `Nat` parameters.
* `bcrypt.hashSync` / `bcrypt.compareSync` and `crypto.randomBytes` are
  parameters of the handlers that use them (`hash`, `compare`, `tokenBytes`).
* Mongoose runs schema validation on `save`.  The Posting schema spells the
  required flag `require:` (a typo that mongoose ignores), so only the `stage`
  enum is enforced for postings; the Contact schema uses `required:` correctly,
  so empty `name`/`company`/`userName` make `save` reject.  A rejected `save`
  in an async Express handler sends no response at all, which the handler
  models by returning `none`.
-/

namespace JobTree

/-- JavaScript truthiness of an optional string body field: absent (`none`)
and the empty string are falsy, every other string is truthy. -/
def jsTruthy (v : Option String) : Bool :=
  match v with
  | none => false
  | some s => !s.isEmpty

/-- JavaScript `v || d` for an optional string body field against a stored
string: keeps `d` when `v` is absent or empty. -/
def jsOr (v : Option String) (d : String) : String :=
  match v with
  | none => d
  | some s => if s.isEmpty then d else s

/-- A stored user document (User model, server.js lines 16-42). -/
structure User where
  name : String
  email : String
  password : String
  accessToken : String
  deriving Repr, DecidableEq

/-- A stored posting document (Posting model, server.js lines 44-71). -/
structure Posting where
  id : Nat
  jobTitle : String
  company : String
  stage : String
  createdAt : Nat
  userName : String
  lastStageChange : Nat
  deriving Repr, DecidableEq

/-- A stored contact document (Contact model, server.js lines 74-91). -/
structure Contact where
  id : Nat
  name : String
  company : String
  notes : String
  userName : String
  deriving Repr, DecidableEq

/-- The document store: the three mongoose collections. -/
structure DB where
  users : List User
  postings : List Posting
  contacts : List Contact
  deriving Repr, DecidableEq

/-- A JSON response body, one constructor per body shape the server sends. -/
inductive Body where
  | userDoc (u : User)
  | postingDoc (p : Posting)
  | contactDoc (c : Contact)
  | postingList (l : List Posting)
  | contactList (l : List Contact)
  | loginOk (userName accessToken : String)
  | notFoundTrue
  | successTrue
  | errorMsg (s : String)
  | saveError
  | text (s : String)
  deriving Repr, DecidableEq

/-- An HTTP response: status code and JSON body. -/
structure Response where
  status : Nat
  body : Body
  deriving Repr, DecidableEq

/-- The `stage` enum of the Posting schema. -/
def stageEnum : List String := ["applied", "interview", "offer", "rejected"]

/-- Mongoose validation run when a Posting is saved: because every `require:`
flag in the Posting schema is a typo for `required:`, only the `stage` enum is
enforced. -/
def postingValid (p : Posting) : Bool :=
  stageEnum.contains p.stage

/-- Mongoose validation run when a Contact is saved: `name`, `company` and
`userName` are `required:`, which for strings also rejects the empty string. -/
def contactValid (c : Contact) : Bool :=
  !c.name.isEmpty && !c.company.isEmpty && !c.userName.isEmpty

/-- Mongoose email validator of the User schema: the regex
`[^\s@]+@[^\s@]+\.[^\s@]+` anchored at both ends.  A character is admissible
when it is neither whitespace nor `@`. -/
def emailChar (c : Char) : Bool :=
  !c.isWhitespace && c != '@'

/-- Split a character list at its first `@`, when one occurs. -/
def splitAtSign : List Char → Option (List Char × List Char)
  | [] => none
  | c :: cs =>
    if c == '@' then some ([], cs)
    else
      match splitAtSign cs with
      | none => none
      | some (l, r) => some (c :: l, r)

/-- Whether the domain part matches `[^\s@]+\.[^\s@]+`: all characters
admissible and a dot at some interior position. -/
def domainOk (d : List Char) : Bool :=
  d.all emailChar &&
    (List.range d.length).any
      (fun i => decide (0 < i) && decide (i + 1 < d.length) &&
        d.getD i ' ' == '.')

/-- The User schema's email validator as a whole: an `@` splitting the string
into a nonempty admissible local part and a matching domain (a second `@`
would land in the domain part and fail its character check, as the anchored
regex demands). -/
def validEmail (s : String) : Bool :=
  match splitAtSign s.data with
  | some (loc, dom) => !loc.isEmpty && loc.all emailChar && domainOk dom
  | none => false

/-- One hex digit of `crypto.randomBytes(..).toString("hex")`. -/
def hexDigit (n : Nat) : Char :=
  if n < 10 then Char.ofNat (48 + n) else Char.ofNat (87 + n)

/-- Hex encoding of a byte list, two lowercase digits per byte, as
`Buffer.toString("hex")` produces. -/
def bytesToHex : List Nat → List Char
  | [] => []
  | b :: bs => hexDigit (b / 16 % 16) :: hexDigit (b % 16) :: bytesToHex bs

/-- The access token generated at user creation:
`crypto.randomBytes(128).toString("hex")` applied to the byte list the
operating system supplies. -/
def randomBytesHex (bytes : List Nat) : String :=
  String.mk (bytesToHex bytes)

/-- Request body of `POST /users`. -/
structure UserBody where
  user : Option String
  email : Option String
  password : Option String
  deriving Repr, DecidableEq

/-- Handler of `POST /users` (server.js lines 104-125).  `hash` stands for
`bcrypt.hashSync`, `tokenBytes` for the 128 random bytes drawn for the
access-token default.  `save` enforces the unique indexes on `name` and
`email` and the email validator; a save error is caught and answered 400 with
the raw error object (`Body.saveError`). -/
def createUser (hash : String → String) (tokenBytes : List Nat)
    (b : UserBody) (db : DB) : Response × DB :=
  if !jsTruthy b.user || !jsTruthy b.email || !jsTruthy b.password then
    (⟨400, .errorMsg "Could not create user. User, email or password missing"⟩, db)
  else
    let name := b.user.getD ""
    let email := b.email.getD ""
    let u : User :=
      { name := name, email := email, password := hash (b.password.getD ""),
        accessToken := randomBytesHex tokenBytes }
    if db.users.any (fun x => x.name == name) ||
        db.users.any (fun x => x.email == email) || !validEmail email then
      (⟨400, .saveError⟩, db)
    else
      (⟨201, .userDoc u⟩, { db with users := db.users ++ [u] })

/-- One observable step of the login handler `POST /users/:userName`
(server.js lines 128-143).  The handler can attempt several `res` sends
because the missing-password branch does not return; it also performs a user
lookup and possibly a `bcrypt.compareSync` call, both recorded. -/
inductive LoginStep where
  | sent (r : Response)
  | lookup (name : String)
  | compareAttempt (password : Option String) (storedHash : String)
  deriving Repr, DecidableEq

/-- Handler of `POST /users/:userName` (server.js lines 128-143), as the trace
of steps it takes, paired with the store it leaves behind (the handler never
writes).  The missing-password branch sends an error but does not return, so
the lookup still runs.  `bcrypt.compareSync` with a non-string first argument
throws, aborting the handler, so after a `compareAttempt` with `none` no
further step occurs. -/
def login (compare : String → String → Bool) (userName : String)
    (password : Option String) (db : DB) : List LoginStep × DB :=
  let pre : List LoginStep :=
    if jsTruthy password then []
    else [.sent ⟨200, .errorMsg "password missing in the body of request"⟩]
  let rest : List LoginStep :=
    match db.users.find? (fun u => u.name == userName) with
    | none => [.sent ⟨401, .notFoundTrue⟩]
    | some u =>
      .compareAttempt password u.password ::
        match password with
        | none => []
        | some p =>
          if compare p u.password then
            [.sent ⟨200, .loginOk u.name u.accessToken⟩]
          else
            [.sent ⟨401, .notFoundTrue⟩]
  (pre ++ .lookup userName :: rest, db)

/-- The response the client actually receives from a trace: the first send
wins, later sends fail with `ERR_HTTP_HEADERS_SENT`. -/
def effectiveResponse (trace : List LoginStep) : Option Response :=
  trace.findSome? (fun s =>
    match s with
    | .sent r => some r
    | _ => none)

/-- The `authenticateUser` middleware (server.js lines 146-154): resolve the
`Authorization` header value against the stored access tokens. -/
def authenticateUser (authHeader : String) (db : DB) : Option User :=
  db.users.find? (fun u => u.accessToken == authHeader)

/-- A protected route (server.js registers `authenticateUser` before each
resource handler): when the token resolves, the handler runs with the resolved
user attached; otherwise the request is answered 401 and the handler is never
reached. -/
def protectedRoute (handler : User → DB → Option (Response × DB))
    (authHeader : String) (db : DB) : Option (Response × DB) :=
  match authenticateUser authHeader db with
  | some u => handler u db
  | none => some (⟨401, .errorMsg "User logged out"⟩, db)

/-- Replace the first list entry satisfying `pred` by `a` (mongoose `save` on
a document found by `findOne`). -/
def replaceFirst (pred : α → Bool) (a : α) : List α → List α
  | [] => []
  | x :: xs => if pred x then a :: xs else x :: replaceFirst pred a xs

/-- Request body of `POST /postings`.  The handler reads only `jobTitle` and
`company`; a caller-supplied `userName` is carried here to show it is
ignored. -/
structure PostingBody where
  jobTitle : Option String
  company : Option String
  userName : Option String
  deriving Repr, DecidableEq

/-- Request body of `PUT /postings/:id`. -/
structure PostingUpdateBody where
  jobTitle : Option String
  company : Option String
  stage : Option String
  deriving Repr, DecidableEq

/-- Request body of `POST /contacts` and `PUT /contacts/:id`.  As for
postings, a caller-supplied `userName` is carried to show create ignores
it. -/
structure ContactBody where
  name : Option String
  company : Option String
  notes : Option String
  userName : Option String
  deriving Repr, DecidableEq

/-- The match used by every by-id posting route:
`{ _id: postingId, userName: req.user.name }`. -/
def postingMatch (u : User) (i : Nat) (p : Posting) : Bool :=
  p.id == i && p.userName == u.name

/-- The match used by every by-id contact route. -/
def contactMatch (u : User) (i : Nat) (c : Contact) : Bool :=
  c.id == i && c.userName == u.name

/-- The 404 body shared by all posting by-id routes. -/
def postingNotFound : Response :=
  ⟨404, .errorMsg "Posting not found or user not authorized"⟩

/-- The 404 body shared by all contact by-id routes. -/
def contactNotFound : Response :=
  ⟨404, .errorMsg "Contact not found or user not authorized"⟩

/-- Handler of `POST /postings` (server.js lines 162-178): requires truthy
`jobTitle` and `company`, builds a new document with `stage` defaulted to
`"applied"`, both timestamps defaulted to now, and `userName` taken from the
authenticated user — the body's `userName` is never read.  The new document's
`stage` is in the enum, so `save` always succeeds. -/
def createPosting (u : User) (b : PostingBody) (newId now : Nat) (db : DB) :
    Option (Response × DB) :=
  if !jsTruthy b.jobTitle || !jsTruthy b.company then
    some (⟨400, .errorMsg "Could not create posting. Job title or company missing"⟩, db)
  else
    let p : Posting :=
      { id := newId, jobTitle := b.jobTitle.getD "", company := b.company.getD "",
        stage := "applied", createdAt := now, userName := u.name,
        lastStageChange := now }
    some (⟨201, .postingDoc p⟩, { db with postings := db.postings ++ [p] })

/-- Handler of `GET /postings/user` (server.js lines 182-185). -/
def listPostings (u : User) (db : DB) : Option (Response × DB) :=
  some (⟨200, .postingList (db.postings.filter (fun p => p.userName == u.name))⟩, db)

/-- The field merge performed on a found posting by `PUT /postings/:id`
(server.js lines 199-208): `||`-merge on `jobTitle` and `company`;
`lastStageChange` is refreshed exactly when the incoming `stage` is truthy and
differs from the stored one, otherwise `stage` gets the `||`-merge too. -/
def updatePostingRecord (b : PostingUpdateBody) (now : Nat) (p : Posting) :
    Posting :=
  let p1 := { p with jobTitle := jsOr b.jobTitle p.jobTitle,
                     company := jsOr b.company p.company }
  if jsTruthy b.stage && b.stage.getD "" != p.stage then
    { p1 with stage := b.stage.getD "", lastStageChange := now }
  else
    { p1 with stage := jsOr b.stage p1.stage }

/-- Handler of `PUT /postings/:id` (server.js lines 189-212): find by id and
owner, 404 when absent, otherwise merge fields and save.  `save` rejects when
the merged `stage` leaves the enum (async handler then sends nothing:
`none`). -/
def updatePosting (u : User) (i : Nat) (b : PostingUpdateBody) (now : Nat)
    (db : DB) : Option (Response × DB) :=
  match db.postings.find? (postingMatch u i) with
  | none => some (postingNotFound, db)
  | some p =>
    let p2 := updatePostingRecord b now p
    if postingValid p2 then
      some (⟨200, .postingDoc p2⟩,
        { db with postings := replaceFirst (postingMatch u i) p2 db.postings })
    else
      none

/-- Handler of `GET /postings/:id` (server.js lines 216-223). -/
def getPosting (u : User) (i : Nat) (db : DB) : Option (Response × DB) :=
  match db.postings.find? (postingMatch u i) with
  | none => some (postingNotFound, db)
  | some p => some (⟨200, .postingDoc p⟩, db)

/-- Handler of `DELETE /postings/:id` (server.js lines 227-234):
`findOneAndDelete` by id and owner. -/
def deletePosting (u : User) (i : Nat) (db : DB) : Option (Response × DB) :=
  match db.postings.find? (postingMatch u i) with
  | none => some (postingNotFound, db)
  | some _ =>
    some (⟨200, .successTrue⟩,
      { db with postings := db.postings.eraseP (postingMatch u i) })

/-- Handler of `GET /contacts` (server.js lines 240-243). -/
def listContacts (u : User) (db : DB) : Option (Response × DB) :=
  some (⟨200, .contactList (db.contacts.filter (fun c => c.userName == u.name))⟩, db)

/-- Handler of `POST /contacts` (server.js lines 247-260): requires truthy
`name` and `company`; `notes` defaults to `""` when absent; `userName` is the
authenticated user's name, the body's `userName` is never read.  `save`
rejects when `userName` is empty (Contact schema `required:`), in which case
no response is sent. -/
def createContact (u : User) (b : ContactBody) (newId : Nat) (db : DB) :
    Option (Response × DB) :=
  if !jsTruthy b.name || !jsTruthy b.company then
    some (⟨400, .errorMsg "Name and company are required"⟩, db)
  else
    let c : Contact :=
      { id := newId, name := b.name.getD "", company := b.company.getD "",
        notes := b.notes.getD "", userName := u.name }
    if contactValid c then
      some (⟨201, .contactDoc c⟩, { db with contacts := db.contacts ++ [c] })
    else
      none

/-- The field merge performed on a found contact by `PUT /contacts/:id`
(server.js lines 271-273): `||`-merge on `name`, `company` and `notes`. -/
def updateContactRecord (b : ContactBody) (c : Contact) : Contact :=
  { c with name := jsOr b.name c.name, company := jsOr b.company c.company,
           notes := jsOr b.notes c.notes }

/-- Handler of `PUT /contacts/:id` (server.js lines 264-276).  `save` rejects
when a required field of the merged document is empty. -/
def updateContact (u : User) (i : Nat) (b : ContactBody) (db : DB) :
    Option (Response × DB) :=
  match db.contacts.find? (contactMatch u i) with
  | none => some (contactNotFound, db)
  | some c =>
    let c2 := updateContactRecord b c
    if contactValid c2 then
      some (⟨200, .contactDoc c2⟩,
        { db with contacts := replaceFirst (contactMatch u i) c2 db.contacts })
    else
      none

/-- Handler of `DELETE /contacts/:id` (server.js lines 280-287):
`findOneAndDelete` by id and owner. -/
def deleteContact (u : User) (i : Nat) (db : DB) : Option (Response × DB) :=
  match db.contacts.find? (contactMatch u i) with
  | none => some (contactNotFound, db)
  | some _ =>
    some (⟨200, .successTrue⟩,
      { db with contacts := db.contacts.eraseP (contactMatch u i) })

/-! Concrete sample data used to instantiate the theorems below. -/

/-- A sample stored user. -/
def alice : User :=
  { name := "alice", email := "a@x.com", password := "Hpw1", accessToken := "tokA" }

/-- A second sample stored user. -/
def bob : User :=
  { name := "bob", email := "b@x.com", password := "Hpw2", accessToken := "tokB" }

/-- A sample posting owned by `alice`. -/
def alicePosting : Posting :=
  { id := 1, jobTitle := "Eng", company := "Acme", stage := "applied",
    createdAt := 10, userName := "alice", lastStageChange := 10 }

/-- A sample posting owned by `bob`. -/
def bobPosting : Posting :=
  { id := 2, jobTitle := "Dev", company := "Initech", stage := "interview",
    createdAt := 11, userName := "bob", lastStageChange := 11 }

/-- A sample contact owned by `alice`. -/
def aliceContact : Contact :=
  { id := 1, name := "Carol", company := "Acme", notes := "", userName := "alice" }

/-- A sample store holding the records above. -/
def sampleDB : DB :=
  { users := [alice, bob], postings := [alicePosting, bobPosting],
    contacts := [aliceContact] }

/-- A sample stand-in for bcrypt hashing, with matching comparison below. -/
def sampleHash (s : String) : String := String.append "H" s

/-- The comparison matching `sampleHash`. -/
def sampleCompare (p h : String) : Bool := String.append "H" p == h

end JobTree

namespace JobTree

/-- C1: a posting or contact created through an authenticated request stores
the authenticated caller's name as `userName`, whatever the body contains; in
particular two create requests differing only in a body-supplied `userName`
produce the very same outcome. -/
theorem spec_C1 :
    (∀ (u : User) (b : PostingBody) (newId now : Nat) (db : DB)
        (r : Response) (db2 : DB),
      createPosting u b newId now db = some (r, db2) → r.status = 201 →
      ∃ p, r.body = .postingDoc p ∧ p.userName = u.name ∧
        db2.postings = db.postings ++ [p]) ∧
    (∀ (u : User) (b : ContactBody) (newId : Nat) (db : DB)
        (r : Response) (db2 : DB),
      createContact u b newId db = some (r, db2) → r.status = 201 →
      ∃ c, r.body = .contactDoc c ∧ c.userName = u.name ∧
        db2.contacts = db.contacts ++ [c]) ∧
    (∀ (u : User) (b1 b2 : PostingBody) (newId now : Nat) (db : DB),
      b1.jobTitle = b2.jobTitle → b1.company = b2.company →
      createPosting u b1 newId now db = createPosting u b2 newId now db) ∧
    (∀ (u : User) (b1 b2 : ContactBody) (newId : Nat) (db : DB),
      b1.name = b2.name → b1.company = b2.company → b1.notes = b2.notes →
      createContact u b1 newId db = createContact u b2 newId db) := by
  refine ⟨?_, ?_, ?_, ?_⟩
  · intro u b newId now db r db2 h h201
    unfold createPosting at h
    split at h
    · rcases h with ⟨⟩
      simp at h201
    · exact ⟨_, by rcases h with ⟨⟩; exact rfl, by rcases h with ⟨⟩; exact rfl,
        by rcases h with ⟨⟩; exact rfl⟩
  · intro u b newId db r db2 h h201
    unfold createContact at h
    split at h
    · rcases h with ⟨⟩
      simp at h201
    · simp only [] at h
      split at h
      · exact ⟨_, by rcases h with ⟨⟩; exact rfl, by rcases h with ⟨⟩; exact rfl,
          by rcases h with ⟨⟩; exact rfl⟩
      · cases h
  · intro u b1 b2 newId now db h1 h2
    unfold createPosting
    rw [h1, h2]
  · intro u b1 b2 newId db h1 h2 h3
    unfold createContact
    rw [h1, h2, h3]

/-- Witness for C1: concrete creations whose stored owner is the caller, and
two concrete bodies differing only in their `userName` field yielding equal
results. -/
theorem spec_C1_witness :
    (∃ p, (Response.mk 201 (Body.postingDoc
          ⟨3, "Eng", "Acme", "applied", 20, "alice", 20⟩)).body =
        .postingDoc p ∧
      p.userName = alice.name ∧
      (DB.mk [alice, bob]
          (sampleDB.postings ++ [⟨3, "Eng", "Acme", "applied", 20, "alice", 20⟩])
          [aliceContact]).postings =
        sampleDB.postings ++ [p]) ∧
    createPosting alice ⟨some "Eng", some "Acme", some "mallory"⟩ 3 20 sampleDB =
      createPosting alice ⟨some "Eng", some "Acme", none⟩ 3 20 sampleDB :=
  ⟨spec_C1.1 alice ⟨some "Eng", some "Acme", some "mallory"⟩ 3 20 sampleDB
      (Response.mk 201 (Body.postingDoc
        ⟨3, "Eng", "Acme", "applied", 20, "alice", 20⟩))
      (DB.mk [alice, bob]
        (sampleDB.postings ++ [⟨3, "Eng", "Acme", "applied", 20, "alice", 20⟩])
        [aliceContact]) (by decide) rfl,
   spec_C1.2.2.1 alice ⟨some "Eng", some "Acme", some "mallory"⟩
      ⟨some "Eng", some "Acme", none⟩ 3 20 sampleDB rfl rfl⟩

/-- A found posting satisfies the id and owner conditions of its query. -/
lemma postingMatch_of_find? {u : User} {i : Nat} {l : List Posting} {p : Posting}
    (h : l.find? (postingMatch u i) = some p) :
    p.id = i ∧ p.userName = u.name := by
  have := List.find?_some h
  simpa [postingMatch] using this

/-- A found contact satisfies the id and owner conditions of its query. -/
lemma contactMatch_of_find? {u : User} {i : Nat} {l : List Contact} {c : Contact}
    (h : l.find? (contactMatch u i) = some c) :
    c.id = i ∧ c.userName = u.name := by
  have := List.find?_some h
  simpa [contactMatch] using this

/-- When no stored posting has the requested id with the caller as owner, the
by-id query comes back empty. -/
lemma find?_posting_none {u : User} {i : Nat} {l : List Posting}
    (h : ¬ ∃ p, p ∈ l ∧ p.id = i ∧ p.userName = u.name) :
    l.find? (postingMatch u i) = none := by
  cases hf : l.find? (postingMatch u i) with
  | none => rfl
  | some p =>
    exact absurd ⟨p, List.mem_of_find?_eq_some hf, postingMatch_of_find? hf⟩ h

/-- When no stored contact has the requested id with the caller as owner, the
by-id query comes back empty. -/
lemma find?_contact_none {u : User} {i : Nat} {l : List Contact}
    (h : ¬ ∃ c, c ∈ l ∧ c.id = i ∧ c.userName = u.name) :
    l.find? (contactMatch u i) = none := by
  cases hf : l.find? (contactMatch u i) with
  | none => rfl
  | some c =>
    exact absurd ⟨c, List.mem_of_find?_eq_some hf, contactMatch_of_find? hf⟩ h

/-- C2: a by-id get, update or delete of a posting or contact succeeds only
when a record with that id exists whose stored owner is the authenticated
caller; when either condition fails, the route answers the one 404 response of
its resource, leaving the store untouched, so a nonexistent id and another
user's id are indistinguishable and cross-owner access never reads or mutates
anything. -/
theorem spec_C2 :
    ∀ (u : User) (i : Nat) (db : DB) (bp : PostingUpdateBody)
      (bc : ContactBody) (now : Nat),
    ((¬ ∃ p, p ∈ db.postings ∧ p.id = i ∧ p.userName = u.name) →
      getPosting u i db = some (postingNotFound, db) ∧
      updatePosting u i bp now db = some (postingNotFound, db) ∧
      deletePosting u i db = some (postingNotFound, db)) ∧
    (∀ r db2, getPosting u i db = some (r, db2) → r.status = 200 →
      ∃ p, p ∈ db.postings ∧ p.id = i ∧ p.userName = u.name) ∧
    (∀ r db2, updatePosting u i bp now db = some (r, db2) → r.status = 200 →
      ∃ p, p ∈ db.postings ∧ p.id = i ∧ p.userName = u.name) ∧
    (∀ r db2, deletePosting u i db = some (r, db2) → r.status = 200 →
      ∃ p, p ∈ db.postings ∧ p.id = i ∧ p.userName = u.name) ∧
    ((¬ ∃ c, c ∈ db.contacts ∧ c.id = i ∧ c.userName = u.name) →
      updateContact u i bc db = some (contactNotFound, db) ∧
      deleteContact u i db = some (contactNotFound, db)) ∧
    (∀ r db2, updateContact u i bc db = some (r, db2) → r.status = 200 →
      ∃ c, c ∈ db.contacts ∧ c.id = i ∧ c.userName = u.name) ∧
    (∀ r db2, deleteContact u i db = some (r, db2) → r.status = 200 →
      ∃ c, c ∈ db.contacts ∧ c.id = i ∧ c.userName = u.name) := by
  intro u i db bp bc now
  refine ⟨?_, ?_, ?_, ?_, ?_, ?_, ?_⟩
  · intro h
    have hf := find?_posting_none h
    exact ⟨by simp [getPosting, hf], by simp [updatePosting, hf],
      by simp [deletePosting, hf]⟩
  · intro r db2 h h200
    cases hf : db.postings.find? (postingMatch u i) with
    | none =>
      rw [getPosting, hf] at h
      rcases h with ⟨⟩
      simp [postingNotFound] at h200
    | some p =>
      exact ⟨p, List.mem_of_find?_eq_some hf, postingMatch_of_find? hf⟩
  · intro r db2 h h200
    cases hf : db.postings.find? (postingMatch u i) with
    | none =>
      rw [updatePosting, hf] at h
      rcases h with ⟨⟩
      simp [postingNotFound] at h200
    | some p =>
      exact ⟨p, List.mem_of_find?_eq_some hf, postingMatch_of_find? hf⟩
  · intro r db2 h h200
    cases hf : db.postings.find? (postingMatch u i) with
    | none =>
      rw [deletePosting, hf] at h
      rcases h with ⟨⟩
      simp [postingNotFound] at h200
    | some p =>
      exact ⟨p, List.mem_of_find?_eq_some hf, postingMatch_of_find? hf⟩
  · intro h
    have hf := find?_contact_none h
    exact ⟨by simp [updateContact, hf], by simp [deleteContact, hf]⟩
  · intro r db2 h h200
    cases hf : db.contacts.find? (contactMatch u i) with
    | none =>
      rw [updateContact, hf] at h
      rcases h with ⟨⟩
      simp [contactNotFound] at h200
    | some c =>
      exact ⟨c, List.mem_of_find?_eq_some hf, contactMatch_of_find? hf⟩
  · intro r db2 h h200
    cases hf : db.contacts.find? (contactMatch u i) with
    | none =>
      rw [deleteContact, hf] at h
      rcases h with ⟨⟩
      simp [contactNotFound] at h200
    | some c =>
      exact ⟨c, List.mem_of_find?_eq_some hf, contactMatch_of_find? hf⟩

/-- Witness for C2: `alice` addressing `bob`'s posting (id 2) gets the very
same 404 responses a nonexistent id would get, and nothing is deleted or
updated. -/
theorem spec_C2_witness :
    getPosting alice 2 sampleDB = some (postingNotFound, sampleDB) ∧
    updatePosting alice 2 ⟨none, none, none⟩ 30 sampleDB =
      some (postingNotFound, sampleDB) ∧
    deletePosting alice 2 sampleDB = some (postingNotFound, sampleDB) :=
  (spec_C2 alice 2 sampleDB ⟨none, none, none⟩ ⟨none, none, none, none⟩ 30).1
    (by decide)

/-- C3: on a posting update, `lastStageChange` becomes the update time exactly
when the incoming `stage` is present and truthy and differs from the stored
one; with `stage` absent, falsy or equal to the stored value it keeps its
prior value (and the stored `stage` stays put).  The last part ties the merge
to the `PUT /postings/:id` handler. -/
theorem spec_C3 :
    ∀ (b : PostingUpdateBody) (now : Nat) (p : Posting),
    (jsTruthy b.stage = true → b.stage.getD "" ≠ p.stage →
      (updatePostingRecord b now p).lastStageChange = now ∧
      (updatePostingRecord b now p).stage = b.stage.getD "") ∧
    (jsTruthy b.stage = true → b.stage.getD "" = p.stage →
      (updatePostingRecord b now p).lastStageChange = p.lastStageChange ∧
      (updatePostingRecord b now p).stage = p.stage) ∧
    (jsTruthy b.stage = false →
      (updatePostingRecord b now p).lastStageChange = p.lastStageChange ∧
      (updatePostingRecord b now p).stage = p.stage) ∧
    (∀ (u : User) (i : Nat) (db : DB) (r : Response) (db2 : DB) (p2 : Posting),
      db.postings.find? (postingMatch u i) = some p →
      updatePosting u i b now db = some (r, db2) →
      r.body = .postingDoc p2 →
      p2 = updatePostingRecord b now p) := by
  intro b now p
  refine ⟨?_, ?_, ?_, ?_⟩
  · intro h1 h2
    simp [updatePostingRecord, h1, bne_iff_ne, h2]
  · intro h1 h2
    cases hbs : b.stage with
    | none => rw [hbs] at h1; simp [jsTruthy] at h1
    | some s =>
      rw [hbs] at h1 h2
      simp only [Option.getD_some] at h2
      simp [jsTruthy] at h1
      simp [updatePostingRecord, hbs, h2, jsOr, h1]
  · intro h1
    cases hbs : b.stage with
    | none => simp [updatePostingRecord, hbs, jsTruthy, jsOr]
    | some s =>
      rw [hbs] at h1
      simp [jsTruthy] at h1
      simp [updatePostingRecord, hbs, jsTruthy, jsOr, h1]
  · intro u i db r db2 p2 hf h hbody
    rw [updatePosting, hf] at h
    simp only [] at h
    split at h
    · rcases h with ⟨⟩
      simp only [] at hbody
      exact (Body.postingDoc.injEq _ _ ▸ hbody).symm
    · cases h

/-- Witness for C3: changing the sample posting's stage from `applied` to
`interview` refreshes `lastStageChange` to the update time, re-sending the
stored stage leaves it alone, and the handler stores exactly the merged
record. -/
theorem spec_C3_witness :
    ((updatePostingRecord ⟨none, none, some "interview"⟩ 30
        alicePosting).lastStageChange = 30 ∧
      (updatePostingRecord ⟨none, none, some "interview"⟩ 30
        alicePosting).stage = (some "interview").getD "") ∧
    ((updatePostingRecord ⟨none, none, some "applied"⟩ 30
        alicePosting).lastStageChange = alicePosting.lastStageChange ∧
      (updatePostingRecord ⟨none, none, some "applied"⟩ 30
        alicePosting).stage = alicePosting.stage) ∧
    ⟨1, "Eng", "Acme", "interview", 10, "alice", 30⟩ =
      updatePostingRecord ⟨none, none, some "interview"⟩ 30 alicePosting :=
  ⟨(spec_C3 ⟨none, none, some "interview"⟩ 30 alicePosting).1 (by decide)
      (by decide),
   (spec_C3 ⟨none, none, some "applied"⟩ 30 alicePosting).2.1 (by decide)
      (by decide),
   (spec_C3 ⟨none, none, some "interview"⟩ 30 alicePosting).2.2.2 alice 1
      sampleDB ⟨200, .postingDoc ⟨1, "Eng", "Acme", "interview", 10, "alice", 30⟩⟩
      (DB.mk [alice, bob]
        (replaceFirst (postingMatch alice 1)
          ⟨1, "Eng", "Acme", "interview", 10, "alice", 30⟩ sampleDB.postings)
        [aliceContact])
      ⟨1, "Eng", "Acme", "interview", 10, "alice", 30⟩
      (by decide) (by decide) rfl⟩

/-- JavaScript `v || d` is exactly: the supplied value when present and
truthy, the stored value otherwise. -/
lemma jsOr_eq (v : Option String) (d : String) :
    jsOr v d = if jsTruthy v then v.getD "" else d := by
  cases v with
  | none => simp [jsOr, jsTruthy]
  | some s =>
    by_cases hs : s.isEmpty <;> simp [jsOr, jsTruthy, hs]

/-- C4: posting and contact updates are partial merges: each updatable field
that arrives present and truthy replaces the stored value, and each field
absent or falsy leaves the stored value unchanged; the last part ties the
contact merge to the `PUT /contacts/:id` handler. -/
theorem spec_C4 :
    ∀ (bp : PostingUpdateBody) (now : Nat) (p : Posting) (bc : ContactBody)
      (c : Contact),
    ((updatePostingRecord bp now p).jobTitle =
      if jsTruthy bp.jobTitle then bp.jobTitle.getD "" else p.jobTitle) ∧
    ((updatePostingRecord bp now p).company =
      if jsTruthy bp.company then bp.company.getD "" else p.company) ∧
    ((updatePostingRecord bp now p).stage =
      if jsTruthy bp.stage then bp.stage.getD "" else p.stage) ∧
    ((updateContactRecord bc c).name =
      if jsTruthy bc.name then bc.name.getD "" else c.name) ∧
    ((updateContactRecord bc c).company =
      if jsTruthy bc.company then bc.company.getD "" else c.company) ∧
    ((updateContactRecord bc c).notes =
      if jsTruthy bc.notes then bc.notes.getD "" else c.notes) ∧
    (∀ (u : User) (i : Nat) (db : DB) (r : Response) (db2 : DB) (c2 : Contact),
      db.contacts.find? (contactMatch u i) = some c →
      updateContact u i bc db = some (r, db2) →
      r.body = .contactDoc c2 →
      c2 = updateContactRecord bc c) := by
  intro bp now p bc c
  refine ⟨?_, ?_, ?_, ?_, ?_, ?_, ?_⟩
  · rw [← jsOr_eq]
    unfold updatePostingRecord
    split <;> rfl
  · rw [← jsOr_eq]
    unfold updatePostingRecord
    split <;> rfl
  · rw [← jsOr_eq]
    unfold updatePostingRecord
    split
    · rename_i hc
      simp only [Bool.and_eq_true, bne_iff_ne] at hc
      simp [jsOr_eq, hc.1]
    · rename_i hc
      simp only [Bool.and_eq_true, not_and, bne_iff_ne] at hc
      by_cases hs : jsTruthy bp.stage
      · have he := not_not.mp (hc hs)
        simp [jsOr_eq, hs, he]
      · simp only [Bool.not_eq_true] at hs
        rfl
  · rw [← jsOr_eq]; rfl
  · rw [← jsOr_eq]; rfl
  · rw [← jsOr_eq]; rfl
  · intro u i db r db2 c2 hf h hbody
    rw [updateContact, hf] at h
    simp only [] at h
    split at h
    · rcases h with ⟨⟩
      simp only [] at hbody
      exact (Body.contactDoc.injEq _ _ ▸ hbody).symm
    · cases h

/-- Witness for C4: a contact update supplying only `notes` replaces `notes`
and keeps `name` and `company`, and the handler stores exactly the merged
record. -/
theorem spec_C4_witness :
    ((updateContactRecord ⟨none, none, some "met at fair", none⟩
        aliceContact).name =
      if jsTruthy none then (none : Option String).getD ""
      else aliceContact.name) ∧
    ((updateContactRecord ⟨none, none, some "met at fair", none⟩
        aliceContact).notes =
      if jsTruthy (some "met at fair") then (some "met at fair").getD ""
      else aliceContact.notes) ∧
    ⟨1, "Carol", "Acme", "met at fair", "alice"⟩ =
      updateContactRecord ⟨none, none, some "met at fair", none⟩ aliceContact :=
  ⟨(spec_C4 ⟨none, none, none⟩ 0 alicePosting
      ⟨none, none, some "met at fair", none⟩ aliceContact).2.2.2.1,
   (spec_C4 ⟨none, none, none⟩ 0 alicePosting
      ⟨none, none, some "met at fair", none⟩ aliceContact).2.2.2.2.2.1,
   (spec_C4 ⟨none, none, none⟩ 0 alicePosting
      ⟨none, none, some "met at fair", none⟩ aliceContact).2.2.2.2.2.2 alice 1
      sampleDB ⟨200, .contactDoc ⟨1, "Carol", "Acme", "met at fair", "alice"⟩⟩
      (DB.mk [alice, bob] sampleDB.postings
        (replaceFirst (contactMatch alice 1)
          ⟨1, "Carol", "Acme", "met at fair", "alice"⟩ sampleDB.contacts))
      ⟨1, "Carol", "Acme", "met at fair", "alice"⟩
      (by decide) (by decide) rfl⟩

/-- C5: for any protected route, when no stored access token equals the
supplied `Authorization` value the request is answered 401 with the store
untouched, whatever the guarded handler would do — the handler is never
reached; when a token matches, the resolved user is handed to the handler,
which produces the whole result. -/
theorem spec_C5 :
    ∀ (handler : User → DB → Option (Response × DB)) (authHeader : String)
      (db : DB),
    ((¬ ∃ x, x ∈ db.users ∧ x.accessToken = authHeader) →
      protectedRoute handler authHeader db =
        some (⟨401, .errorMsg "User logged out"⟩, db)) ∧
    (∀ x, db.users.find? (fun y => y.accessToken == authHeader) = some x →
      protectedRoute handler authHeader db = handler x db) := by
  intro handler authHeader db
  constructor
  · intro h
    have hf : db.users.find? (fun y => y.accessToken == authHeader) = none := by
      cases hf : db.users.find? (fun y => y.accessToken == authHeader) with
      | none => rfl
      | some x =>
        exact absurd ⟨x, List.mem_of_find?_eq_some hf,
          by simpa using List.find?_some hf⟩ h
    simp [protectedRoute, authenticateUser, hf]
  · intro x hf
    simp [protectedRoute, authenticateUser, hf]

/-- Witness for C5: an unknown token is refused 401 before the get-posting
handler can run, and `alice`'s token routes straight into the handler. -/
theorem spec_C5_witness :
    protectedRoute (fun v d => getPosting v 1 d) "badToken" sampleDB =
      some (⟨401, .errorMsg "User logged out"⟩, sampleDB) ∧
    protectedRoute (fun v d => getPosting v 1 d) "tokA" sampleDB =
      (fun v d => getPosting v 1 d) alice sampleDB :=
  ⟨(spec_C5 (fun v d => getPosting v 1 d) "badToken" sampleDB).1 (by decide),
   (spec_C5 (fun v d => getPosting v 1 d) "tokA" sampleDB).2 alice (by decide)⟩

/-- C6: a login with a correct name and password is answered with exactly the
stored access token — the one generated at account creation — and leaves the
store unchanged, so repeating the login yields the same token again. -/
theorem spec_C6 :
    ∀ (compare : String → String → Bool) (name pw : String) (db : DB)
      (x : User),
    db.users.find? (fun y => y.name == name) = some x →
    pw.isEmpty = false →
    compare pw x.password = true →
    effectiveResponse (login compare name (some pw) db).1 =
      some ⟨200, .loginOk x.name x.accessToken⟩ ∧
    (login compare name (some pw) db).2 = db ∧
    effectiveResponse
        (login compare name (some pw) ((login compare name (some pw) db).2)).1 =
      some ⟨200, .loginOk x.name x.accessToken⟩ := by
  intro compare name pw db x hf hpw hc
  have h1 : effectiveResponse (login compare name (some pw) db).1 =
      some ⟨200, .loginOk x.name x.accessToken⟩ := by
    simp [login, jsTruthy, hpw, hf, hc, effectiveResponse]
  exact ⟨h1, rfl, h1⟩

/-- Witness for C6: `alice` logging in twice with her password gets her stored
token `tokA` both times, and the store is untouched. -/
theorem spec_C6_witness :
    effectiveResponse (login sampleCompare "alice" (some "pw1") sampleDB).1 =
      some ⟨200, .loginOk alice.name alice.accessToken⟩ ∧
    (login sampleCompare "alice" (some "pw1") sampleDB).2 = sampleDB ∧
    effectiveResponse
        (login sampleCompare "alice" (some "pw1")
          ((login sampleCompare "alice" (some "pw1") sampleDB).2)).1 =
      some ⟨200, .loginOk alice.name alice.accessToken⟩ :=
  spec_C6 sampleCompare "alice" "pw1" sampleDB alice (by decide) (by decide)
    (by decide)

/-- C7: a login carrying a password fails with the one 401 `notFound` body —
the same body whether the name was unknown or the password comparison failed —
and the store is untouched. -/
theorem spec_C7 :
    ∀ (compare : String → String → Bool) (name pw : String) (db : DB),
    pw.isEmpty = false →
    (db.users.find? (fun y => y.name == name) = none ∨
      (∃ x, db.users.find? (fun y => y.name == name) = some x ∧
        compare pw x.password = false)) →
    effectiveResponse (login compare name (some pw) db).1 =
      some ⟨401, .notFoundTrue⟩ ∧
    (login compare name (some pw) db).2 = db := by
  intro compare name pw db hpw h
  refine ⟨?_, rfl⟩
  rcases h with hf | ⟨x, hf, hc⟩
  · simp [login, jsTruthy, hpw, hf, effectiveResponse]
  · simp [login, jsTruthy, hpw, hf, hc, effectiveResponse]

/-- Witness for C7: an unknown name and a wrong password for `alice` both get
exactly the 401 `notFound` response. -/
theorem spec_C7_witness :
    (effectiveResponse (login sampleCompare "nobody" (some "pw1") sampleDB).1 =
        some ⟨401, .notFoundTrue⟩ ∧
      (login sampleCompare "nobody" (some "pw1") sampleDB).2 = sampleDB) ∧
    (effectiveResponse (login sampleCompare "alice" (some "wrong") sampleDB).1 =
        some ⟨401, .notFoundTrue⟩ ∧
      (login sampleCompare "alice" (some "wrong") sampleDB).2 = sampleDB) :=
  ⟨spec_C7 sampleCompare "nobody" "pw1" sampleDB (by decide)
      (Or.inl (by decide)),
   spec_C7 sampleCompare "alice" "wrong" sampleDB (by decide)
      (Or.inr ⟨alice, by decide, by decide⟩)⟩

/-- Lowercase hexadecimal digit test. -/
def isLowerHex (c : Char) : Bool :=
  ('0' ≤ c && c ≤ '9') || ('a' ≤ c && c ≤ 'f')

/-- Each byte contributes exactly two characters to the hex encoding. -/
lemma bytesToHex_length (l : List Nat) :
    (bytesToHex l).length = 2 * l.length := by
  induction l with
  | nil => rfl
  | cons b bs ih =>
    simp only [bytesToHex, List.length_cons, ih]
    omega

/-- The sixteen digit characters are all lowercase hex. -/
lemma hexDigit_isLowerHex : ∀ n, n < 16 → isLowerHex (hexDigit n) = true := by
  decide

/-- The hex encoding emits only lowercase hex characters. -/
lemma bytesToHex_all_hex (l : List Nat) :
    (bytesToHex l).all isLowerHex = true := by
  induction l with
  | nil => rfl
  | cons b bs ih =>
    have h1 : b / 16 % 16 < 16 := Nat.mod_lt _ (by norm_num)
    have h2 : b % 16 < 16 := Nat.mod_lt _ (by norm_num)
    simp [bytesToHex, List.all_cons, ih, hexDigit_isLowerHex _ h1,
      hexDigit_isLowerHex _ h2]

/-- C8: creating a user whose name or email is already taken fails with 400
and stores nothing; creating with all three fields present, a well-formed
email and fresh name and email succeeds with 201, storing a record whose
access token is the hex of the drawn random bytes — 256 lowercase hex
characters when, as in the code, 128 bytes are drawn. -/
theorem spec_C8 :
    ∀ (hash : String → String) (tokenBytes : List Nat) (b : UserBody)
      (db : DB),
    ((∃ x, x ∈ db.users ∧ (b.user = some x.name ∨ b.email = some x.email)) →
      (createUser hash tokenBytes b db).1.status = 400 ∧
      (createUser hash tokenBytes b db).2 = db) ∧
    (jsTruthy b.user = true → jsTruthy b.email = true →
      jsTruthy b.password = true → validEmail (b.email.getD "") = true →
      (∀ x, x ∈ db.users →
        x.name ≠ b.user.getD "" ∧ x.email ≠ b.email.getD "") →
      createUser hash tokenBytes b db =
        (⟨201, .userDoc ⟨b.user.getD "", b.email.getD "",
            hash (b.password.getD ""), randomBytesHex tokenBytes⟩⟩,
          { db with users := db.users ++ [⟨b.user.getD "", b.email.getD "",
              hash (b.password.getD ""), randomBytesHex tokenBytes⟩] }) ∧
      (tokenBytes.length = 128 →
        (randomBytesHex tokenBytes).length = 256 ∧
        (randomBytesHex tokenBytes).data.all isLowerHex = true)) := by
  intro hash tokenBytes b db
  constructor
  · rintro ⟨x, hx, hcase⟩
    by_cases ht : (!jsTruthy b.user || !jsTruthy b.email ||
        !jsTruthy b.password) = true
    · simp [createUser, ht]
    · simp only [Bool.not_eq_true] at ht
      have hcond : (db.users.any (fun y => y.name == b.user.getD "") ||
          db.users.any (fun y => y.email == b.email.getD "") ||
          !validEmail (b.email.getD "")) = true := by
        rcases hcase with hc | hc
        · have h1 : db.users.any (fun y => y.name == b.user.getD "") = true :=
            List.any_eq_true.mpr ⟨x, hx, by rw [hc]; simp⟩
          simp [h1]
        · have h1 : db.users.any (fun y => y.email == b.email.getD "") = true :=
            List.any_eq_true.mpr ⟨x, hx, by rw [hc]; simp⟩
          simp [h1]
      simp [createUser, ht, hcond]
  · intro h1 h2 h3 hvalid huniq
    have ht : (!jsTruthy b.user || !jsTruthy b.email ||
        !jsTruthy b.password) = false := by
      simp [h1, h2, h3]
    have hu : db.users.any (fun y => y.name == b.user.getD "") = false := by
      rw [List.any_eq_false]
      intro x hx
      simp [(huniq x hx).1]
    have he : db.users.any (fun y => y.email == b.email.getD "") = false := by
      rw [List.any_eq_false]
      intro x hx
      simp [(huniq x hx).2]
    refine ⟨by simp [createUser, ht, hu, he, hvalid], ?_⟩
    intro hlen
    constructor
    · show (bytesToHex tokenBytes).length = 256
      rw [bytesToHex_length, hlen]
    · exact bytesToHex_all_hex tokenBytes

/-- Witness for C8: re-using `alice`'s name is refused 400 without touching
the store, while fresh `carol` with a well-formed email is created 201, her
token being the 256 lowercase hex characters of 128 concrete bytes. -/
theorem spec_C8_witness :
    ((createUser sampleHash (List.replicate 128 171)
        ⟨some "alice", some "new@x.com", some "pw9"⟩ sampleDB).1.status = 400 ∧
      (createUser sampleHash (List.replicate 128 171)
        ⟨some "alice", some "new@x.com", some "pw9"⟩ sampleDB).2 = sampleDB) ∧
    (createUser sampleHash (List.replicate 128 171)
        ⟨some "carol", some "c@x.com", some "pw3"⟩ sampleDB =
      (⟨201, .userDoc ⟨"carol", "c@x.com", sampleHash "pw3",
          randomBytesHex (List.replicate 128 171)⟩⟩,
        DB.mk (sampleDB.users ++ [⟨"carol", "c@x.com", sampleHash "pw3",
            randomBytesHex (List.replicate 128 171)⟩])
          sampleDB.postings sampleDB.contacts) ∧
      ((randomBytesHex (List.replicate 128 171)).length = 256 ∧
        (randomBytesHex (List.replicate 128 171)).data.all isLowerHex = true)) :=
  ⟨(spec_C8 sampleHash (List.replicate 128 171)
      ⟨some "alice", some "new@x.com", some "pw9"⟩ sampleDB).1
      ⟨alice, by decide, Or.inl rfl⟩,
   ((spec_C8 sampleHash (List.replicate 128 171)
      ⟨some "carol", some "c@x.com", some "pw3"⟩ sampleDB).2
      rfl rfl rfl (by decide) (by decide)).1,
   ((spec_C8 sampleHash (List.replicate 128 171)
      ⟨some "carol", some "c@x.com", some "pw3"⟩ sampleDB).2
      rfl rfl rfl (by decide) (by decide)).2 rfl⟩

/-- C9: a posting update never touches `id`, `createdAt` or `userName`: the
merged record keeps all three, and a successful `PUT /postings/:id` stores and
returns exactly that merged record, leaving users and contacts alone — so an
update can neither change a posting's creation time nor move it to another
owner. -/
theorem spec_C9 :
    ∀ (u : User) (i : Nat) (b : PostingUpdateBody) (now : Nat) (db : DB)
      (p : Posting),
    ((updatePostingRecord b now p).id = p.id ∧
      (updatePostingRecord b now p).createdAt = p.createdAt ∧
      (updatePostingRecord b now p).userName = p.userName) ∧
    (db.postings.find? (postingMatch u i) = some p →
      ∀ r db2, updatePosting u i b now db = some (r, db2) → r.status = 200 →
        r = ⟨200, .postingDoc (updatePostingRecord b now p)⟩ ∧
        db2.postings =
          replaceFirst (postingMatch u i) (updatePostingRecord b now p)
            db.postings ∧
        db2.users = db.users ∧ db2.contacts = db.contacts) := by
  intro u i b now db p
  constructor
  · unfold updatePostingRecord
    simp only []
    split <;> exact ⟨rfl, rfl, rfl⟩
  · intro hf r db2 h h200
    rw [updatePosting, hf] at h
    simp only [] at h
    split at h
    · rcases h with ⟨⟩
      exact ⟨rfl, rfl, rfl, rfl⟩
    · cases h

/-- Witness for C9: updating the sample posting's title keeps its id,
creation time and owner, and the handler stores that very record. -/
theorem spec_C9_witness :
    ((updatePostingRecord ⟨some "Senior Eng", none, none⟩ 35
        alicePosting).id = alicePosting.id ∧
      (updatePostingRecord ⟨some "Senior Eng", none, none⟩ 35
        alicePosting).createdAt = alicePosting.createdAt ∧
      (updatePostingRecord ⟨some "Senior Eng", none, none⟩ 35
        alicePosting).userName = alicePosting.userName) ∧
    (Response.mk 200 (.postingDoc
        ⟨1, "Senior Eng", "Acme", "applied", 10, "alice", 10⟩) =
      ⟨200, .postingDoc (updatePostingRecord ⟨some "Senior Eng", none, none⟩ 35
        alicePosting)⟩ ∧
      (DB.mk [alice, bob]
          (replaceFirst (postingMatch alice 1)
            (updatePostingRecord ⟨some "Senior Eng", none, none⟩ 35
              alicePosting) sampleDB.postings)
          [aliceContact]).postings =
        replaceFirst (postingMatch alice 1)
          (updatePostingRecord ⟨some "Senior Eng", none, none⟩ 35 alicePosting)
          sampleDB.postings ∧
      [alice, bob] = sampleDB.users ∧ [aliceContact] = sampleDB.contacts) :=
  ⟨(spec_C9 alice 1 ⟨some "Senior Eng", none, none⟩ 35 sampleDB
      alicePosting).1,
   (spec_C9 alice 1 ⟨some "Senior Eng", none, none⟩ 35 sampleDB
      alicePosting).2 (by decide)
      ⟨200, .postingDoc ⟨1, "Senior Eng", "Acme", "applied", 10, "alice", 10⟩⟩
      (DB.mk [alice, bob]
        (replaceFirst (postingMatch alice 1)
          (updatePostingRecord ⟨some "Senior Eng", none, none⟩ 35 alicePosting)
          sampleDB.postings)
        [aliceContact])
      (by decide) rfl⟩

/-- C10: a login request with an absent or falsy password is answered with
status 200 — not 401 — carrying the password-missing error body, yet the
handler, lacking an early return, still looks the user up by name and, when
one exists, still attempts the bcrypt comparison against the stored hash. -/
theorem spec_C10 :
    ∀ (compare : String → String → Bool) (name : String)
      (password : Option String) (db : DB),
    jsTruthy password = false →
    (login compare name password db).1.head? =
      some (.sent ⟨200, .errorMsg "password missing in the body of request"⟩) ∧
    effectiveResponse (login compare name password db).1 =
      some ⟨200, .errorMsg "password missing in the body of request"⟩ ∧
    LoginStep.lookup name ∈ (login compare name password db).1 ∧
    (∀ x, db.users.find? (fun y => y.name == name) = some x →
      LoginStep.compareAttempt password x.password ∈
        (login compare name password db).1) := by
  intro compare name password db hp
  refine ⟨?_, ?_, ?_, ?_⟩
  · simp [login, hp]
  · simp [login, hp, effectiveResponse]
  · simp [login, hp]
  · intro x hf
    simp [login, hp, hf]

/-- Witness for C10: `alice` logging in without a password is answered 200
with the error body, and the handler still looks her up and still attempts the
hash comparison with the missing password. -/
theorem spec_C10_witness :
    (login sampleCompare "alice" none sampleDB).1.head? =
      some (.sent ⟨200, .errorMsg "password missing in the body of request"⟩) ∧
    effectiveResponse (login sampleCompare "alice" none sampleDB).1 =
      some ⟨200, .errorMsg "password missing in the body of request"⟩ ∧
    LoginStep.lookup "alice" ∈ (login sampleCompare "alice" none sampleDB).1 ∧
    LoginStep.compareAttempt none alice.password ∈
      (login sampleCompare "alice" none sampleDB).1 :=
  ⟨(spec_C10 sampleCompare "alice" none sampleDB rfl).1,
   (spec_C10 sampleCompare "alice" none sampleDB rfl).2.1,
   (spec_C10 sampleCompare "alice" none sampleDB rfl).2.2.1,
   (spec_C10 sampleCompare "alice" none sampleDB rfl).2.2.2 alice (by decide)⟩

end JobTree
